import Mathlib

/-!
Shallow embedding of the live-reload dev-server core of the `tsbuild`
repository: the `SSEManager` class, the HTTP request handler, the watcher
handlers, and the serve lifecycle (source file `serve.ts`, plus
`src/copyfiles.ts`).  External collaborators (node `path.join`,
`decodeURIComponent`, the `mime` package, `fs.readFile`, `fs.cp`) are
parameters of the model; everything written in the repository itself is
translated directly.
-/

namespace TsBuild

/-- Model of a JavaScript string test for a pattern occurring at the start:
`startsWithList l pat` is `true` when `pat` is an initial segment of `l`. -/
def startsWithList : List Char → List Char → Bool
  | _, [] => true
  | [], _ :: _ => false
  | a :: as, b :: bs => a == b && startsWithList as bs

/-- First-occurrence search, as in JavaScript `String.prototype.indexOf`:
returns the text before and after the first occurrence of `pat`, or `none`
when `pat` does not occur. -/
def splitFirst (pat : List Char) : List Char → Option (List Char × List Char)
  | [] => if startsWithList [] pat then some ([], []) else none
  | a :: as =>
    if startsWithList (a :: as) pat then some ([], (a :: as).drop pat.length)
    else (splitFirst pat as).map (fun pr => (a :: pr.1, pr.2))

/-- JavaScript `String.prototype.replace` with a plain-string pattern:
replaces only the FIRST occurrence of `pat` by `rep`, and returns the input
unchanged when `pat` does not occur. -/
def jsReplaceFirst (pat rep s : List Char) : List Char :=
  match splitFirst pat s with
  | none => s
  | some (pre, post) => pre ++ rep ++ post

/-- Substring occurrence test (JavaScript `String.prototype.includes`). -/
def containsSub (pat : List Char) : List Char → Bool
  | [] => startsWithList [] pat
  | a :: as => startsWithList (a :: as) pat || containsSub pat as

/-- JavaScript `String.prototype.endsWith`. -/
def jsEndsWith (s pat : String) : Bool :=
  startsWithList s.data.reverse pat.data.reverse

theorem startsWithList_iff (pat : List Char) :
    ∀ l : List Char, startsWithList l pat = true ↔ ∃ rest, l = pat ++ rest := by
  induction pat with
  | nil => intro l; simp [startsWithList]
  | cons b bs ih =>
    intro l
    cases l with
    | nil => simp [startsWithList]
    | cons a as =>
      simp only [startsWithList, Bool.and_eq_true, beq_iff_eq, ih as,
        List.cons_append, List.cons.injEq]
      constructor
      · rintro ⟨rfl, rest, rfl⟩; exact ⟨rest, rfl, rfl⟩
      · rintro ⟨rest, rfl, rfl⟩; exact ⟨rfl, rest, rfl⟩

theorem splitFirst_eq_none_iff (pat : List Char) :
    ∀ s : List Char, splitFirst pat s = none ↔ containsSub pat s = false := by
  intro s
  induction s with
  | nil =>
    by_cases h : startsWithList [] pat = true <;>
      simp [splitFirst, containsSub, h]
  | cons a as ih =>
    by_cases h : startsWithList (a :: as) pat = true
    · simp [splitFirst, containsSub, h]
    · rw [Bool.not_eq_true] at h
      simp [splitFirst, containsSub, h, Option.map_eq_none', ih]

theorem containsSub_iff (pat : List Char) :
    ∀ s : List Char, containsSub pat s = true ↔ ∃ pre post, s = pre ++ pat ++ post := by
  intro s
  induction s with
  | nil =>
    simp only [containsSub, startsWithList_iff]
    constructor
    · rintro ⟨rest, h⟩
      rcases List.append_eq_nil.mp h.symm with ⟨h1, h2⟩
      exact ⟨[], [], by simp [h1, h2]⟩
    · rintro ⟨pre, post, h⟩
      rcases List.append_eq_nil.mp ((List.append_assoc pre pat post ▸ h).symm) with ⟨h1, h2⟩
      rcases List.append_eq_nil.mp h2 with ⟨h3, _⟩
      exact ⟨[], by simp [h3]⟩
  | cons a as ih =>
    simp only [containsSub, Bool.or_eq_true, startsWithList_iff, ih]
    constructor
    · rintro (⟨rest, h⟩ | ⟨pre, post, h⟩)
      · exact ⟨[], rest, by simp [h]⟩
      · exact ⟨a :: pre, post, by simp [h]⟩
    · rintro ⟨pre, post, h⟩
      cases pre with
      | nil => exact Or.inl ⟨post, by simpa using h⟩
      | cons x xs =>
        simp only [List.cons_append, List.cons.injEq] at h
        exact Or.inr ⟨xs, post, h.2⟩

theorem splitFirst_of_startsWith (pat s : List Char)
    (h : startsWithList s pat = true) :
    splitFirst pat s = some ([], s.drop pat.length) := by
  cases s with
  | nil =>
    rcases (startsWithList_iff pat []).mp h with ⟨rest, hr⟩
    rcases List.append_eq_nil.mp hr.symm with ⟨h1, _⟩
    simp [splitFirst, startsWithList, h1]
  | cons a as => simp [splitFirst, h]

/-- If `pat` occurs at position `pre.length` and at no earlier position, then
the first-occurrence split finds exactly that decomposition. -/
theorem splitFirst_of_decomp (pat : List Char) :
    ∀ pre post : List Char,
      (∀ i, i < pre.length →
        startsWithList ((pre ++ pat ++ post).drop i) pat = false) →
      splitFirst pat (pre ++ pat ++ post) = some (pre, post) := by
  intro pre
  induction pre with
  | nil =>
    intro post _
    have hsw : startsWithList (pat ++ post) pat = true :=
      (startsWithList_iff pat (pat ++ post)).mpr ⟨post, rfl⟩
    rw [List.nil_append]
    rw [splitFirst_of_startsWith pat (pat ++ post) hsw]
    simp
  | cons a pre' ih =>
    intro post hfirst
    have h0 : startsWithList ((a :: pre') ++ pat ++ post) pat = false := by
      have := hfirst 0 (by simp)
      simpa using this
    have hrec : splitFirst pat (pre' ++ pat ++ post) = some (pre', post) := by
      apply ih
      intro i hi
      have := hfirst (i + 1) (by simpa using Nat.succ_lt_succ hi)
      simpa using this
    have hne : startsWithList (a :: (pre' ++ pat ++ post)) pat = false := by
      simpa using h0
    rw [List.append_assoc] at hne hrec
    simp [splitFirst, List.append_assoc, hne, hrec]

/-! ## Data model from the source -/

/-- `CopyPair` from `src/copyfiles.ts` (fields `from` / `to`; `from` is a
Lean keyword, hence the suffixed field names). -/
structure CopyPair where
  fromPath : String
  toPath : String
deriving DecidableEq, Repr

/-- Result of the HTTP request handler: the SSE registration branch, a 200
response with a content type and a body, or a 404 with a body. -/
inductive ServeResponse where
  | sse
  | ok (contentType : String) (body : String)
  | notFound (body : String)
deriving DecidableEq, Repr

/-- HTTP status code of a handler result (`writeHead(200, ...)` on both the
static and the SSE branch, `writeHead(404)` on the error branch). -/
def ServeResponse.status : ServeResponse → Nat
  | .sse => 200
  | .ok _ _ => 200
  | .notFound _ => 404

/-- Observable effects emitted by the server model. -/
inductive Output where
  | response (r : ServeResponse)
  | sseOpen (c : Nat)
  | write (c : Nat) (data : String)
  | copied (fromP toP : String)
  | log (msg : String)
  | logError (msg : String)
  | uncaughtError (msg : String)
  | serverClosed
  | watcherClosed (w : String)
  | clientEnded (c : Nat)
  | promiseResolvedMark
  | exit (code : Nat)
deriving DecidableEq, Repr

/-- The SSE reload message written by `sendReload`. -/
def sseReloadMsg : String := "data: reload\n\n"

/-- The `SSEManager` class state: the `clients` array, each client identified
by the number of its connection. -/
structure SSEManager where
  clients : List Nat
deriving DecidableEq, Repr

/-- `SSEManager.handle`: after the SSE headers and the initial blank line are
written, the response is pushed onto `clients` (the close handler installed
here is modelled by `SSEManager.onClose` below). -/
def SSEManager.handle (m : SSEManager) (c : Nat) : SSEManager :=
  ⟨m.clients ++ [c]⟩

/-- The close handler installed by `SSEManager.handle`:
`indexOf` finds the first occurrence of the client (or `-1`), and
`splice(idx, 1)` removes exactly that occurrence, which is `List.erase`. -/
def SSEManager.onClose (m : SSEManager) (c : Nat) : SSEManager :=
  ⟨m.clients.erase c⟩

/-- `SSEManager.sendReload`: the loop `for client of clients` performs
`client.write("data: reload\n\n")` on every client in order.  `write` on a
node response stream reports failure through its return value or an error
event, never by a synchronous exception, so each iteration is modelled as a
total write attempt whose success flag `wOk` is supplied by the environment.
The loop neither inspects the flag nor mutates `clients`. -/
def sendReloadAttempts (m : SSEManager) (wOk : Nat → Bool) :
    List (Nat × String × Bool) :=
  m.clients.map (fun c => (c, sseReloadMsg, wOk c))

/-- The write events of one broadcast, as observed by the session model. -/
def broadcastWrites (m : SSEManager) : List Output :=
  m.clients.map (fun c => Output.write c sseReloadMsg)

/-- `SSEManager.closeAll`: `end()` every client, then clear the list. -/
def SSEManager.closeAll (_ : SSEManager) : SSEManager :=
  ⟨[]⟩

/-! ## Hub event traces (register / close) -/

/-- The two events that mutate the hub client list. -/
inductive HubEvent where
  | connect (c : Nat)
  | close (c : Nat)
deriving DecidableEq, Repr

/-- One hub list mutation. -/
def hubStep (m : SSEManager) : HubEvent → SSEManager
  | .connect c => m.handle c
  | .close c => m.onClose c

/-- The hub list after a trace of connect/close events, starting empty. -/
def hubRun (es : List HubEvent) : SSEManager :=
  es.foldl hubStep ⟨[]⟩

/-- How many times a given client connects in a trace. -/
def hubConnectCount (es : List HubEvent) (c : Nat) : Nat :=
  es.count (HubEvent.connect c)

/-! ## The request handler -/

/-- Configuration and external collaborators of one serve session: the
arguments of `serve` plus the library functions the handler calls
(`path.join`, `decodeURIComponent`, `mime.getType`, `fs.readFile`).  The
`mimeGetType` result is `none` when the `mime` package returns `null`, and
`readFile` is `none` exactly when `fs.readFile` reports an error. -/
structure ServeConfig where
  root : String
  copyPairs : List CopyPair
  shouldWatch : Bool
  pathJoin : String → String → String
  decodeURIComponent : String → String
  mimeGetType : String → Option String
  readFile : String → Option String

/-- The `filePath` computed by the request handler:
`path.join(root, url === "/" ? "/index.html" : decodeURIComponent(url))`. -/
def resolvePath (cfg : ServeConfig) (url : String) : String :=
  cfg.pathJoin cfg.root
    (if url = "/" then "/index.html" else cfg.decodeURIComponent url)

/-- The closing tag searched for by the injection step. -/
def bodyCloseTag : String := "</body>"

/-- The template literal `script` from the request handler, byte for byte. -/
def reloadScript : String :=
  "\n        <script>\n          const es = new EventSource('/__reload');\n          es.onmessage = () => location.reload();\n        </script>\n        "

/-- `data.toString().replace("</body>", script + "</body>")`: the reload
script is inserted before the first occurrence of `</body>`; the content is
unchanged when the tag does not occur. -/
def injectReloadScript (content : String) : String :=
  String.mk
    (jsReplaceFirst bodyCloseTag.data (reloadScript.data ++ bodyCloseTag.data)
      content.data)

/-- The `http.createServer` request callback. -/
def handleRequest (cfg : ServeConfig) (url : String) : ServeResponse :=
  if cfg.shouldWatch && url == "/__reload" then ServeResponse.sse
  else
    let filePath := resolvePath cfg url
    match cfg.readFile filePath with
    | none => ServeResponse.notFound "Not found"
    | some fileData =>
      let contentType := (cfg.mimeGetType filePath).getD "application/octet-stream"
      if cfg.shouldWatch && jsEndsWith filePath "index.html" then
        ServeResponse.ok contentType (injectReloadScript fileData)
      else
        ServeResponse.ok contentType fileData

/-! ## Watcher handlers and `copyAllAssets` -/

/-- `copyAllAssets` from `src/copyfiles.ts`: sequentially `await cp(from, to)`
for every pair; the first failing copy rejects the whole call.  The
filesystem copy operation is the parameter `cp`; on success the model
records one `copied` event per pair. -/
def copyAllAssets (cp : String → String → Except String Unit) :
    List CopyPair → Except String (List Output)
  | [] => Except.ok []
  | p :: rest =>
    match cp p.fromPath p.toPath with
    | Except.error e => Except.error e
    | Except.ok _ =>
      (copyAllAssets cp rest).map
        (fun outs => Output.copied p.fromPath p.toPath :: outs)

/-- The `assetWatcher.on("all", ...)` callback: `await copyAllAssets`, log,
broadcast.  There is no try/catch, so a copy failure propagates out of the
handler as a rejection. -/
def assetAllHandler (cp : String → String → Except String Unit)
    (pairs : List CopyPair) (hub : SSEManager) : Except String (List Output) :=
  (copyAllAssets cp pairs).map
    (fun outs => outs ++ [Output.log "Assets copied"] ++ broadcastWrites hub)

/-- The `rebuild` callback installed on the source watcher: the rebuild call
is awaited inside try/catch, so the handler is total; on success it logs and
broadcasts, on failure it only logs the error. -/
def rebuildHandler (hub : SSEManager) : Except String Unit → List Output
  | Except.ok _ => Output.log "Rebuilt source" :: broadcastWrites hub
  | Except.error e => [Output.logError ("Build error: " ++ e)]

/-! ## The serve session event loop -/

/-- Mutable state of a serve session: whether the listener accepts
connections, the hub client list, whether each watcher is open, whether the
promise returned by `serve` has resolved, and the process exit code. -/
structure ServerState where
  listening : Bool
  hub : SSEManager
  assetWatcherOpen : Bool
  sourceWatcherOpen : Bool
  promiseResolved : Bool
  exited : Option Nat
deriving DecidableEq, Repr

/-- Session state right after startup in `serve` (initial copy and build
done, listener bound): watchers are open exactly when watching is enabled. -/
def initState (shouldWatch : Bool) : ServerState :=
  ⟨true, ⟨[]⟩, shouldWatch, shouldWatch, false, none⟩

/-- The events delivered to the session by the node event loop.  A request
carries the connection number used if it registers as an SSE client; an
asset event carries the changed path (ignored by the handler) and the
filesystem copy operation for that cycle; a source event carries the
outcome of that cycle's `ctx.rebuild()`. -/
inductive SessionEvent where
  | request (cid : Nat) (url : String)
  | sourceChange (res : Except String Unit)
  | assetChange (changedPath : String) (cp : String → String → Except String Unit)
  | connClose (cid : Nat)
  | sigint

/-- One callback dispatch of the serve session, following the source:
requests go through the `http.createServer` callback (SSE registration or
static file service); watcher events run their handlers only while the
watcher is open, a rejected asset cycle surfacing as an uncaught error;
`SIGINT` logs, closes the server, and the `close` event then closes both
watchers (registered first), ends all SSE clients, resolves the promise,
and finally runs the `server.close` callback `process.exit(0)`. -/
def step (cfg : ServeConfig) (s : ServerState) : SessionEvent → ServerState × List Output
  | .request cid url =>
    if s.listening then
      match handleRequest cfg url with
      | ServeResponse.sse =>
        ({ s with hub := s.hub.handle cid },
          [Output.sseOpen cid, Output.write cid "\n"])
      | r => (s, [Output.response r])
    else (s, [])
  | .sourceChange res =>
    if s.sourceWatcherOpen then (s, rebuildHandler s.hub res) else (s, [])
  | .assetChange _ cp =>
    if s.assetWatcherOpen then
      match assetAllHandler cp cfg.copyPairs s.hub with
      | Except.ok outs => (s, outs)
      | Except.error e => (s, [Output.uncaughtError e])
    else (s, [])
  | .connClose cid => ({ s with hub := s.hub.onClose cid }, [])
  | .sigint =>
    if s.exited = none then
      ({ listening := false, hub := s.hub.closeAll, assetWatcherOpen := false,
         sourceWatcherOpen := false, promiseResolved := true, exited := some 0 },
        [Output.log "\nShutting down...", Output.serverClosed]
          ++ (if s.assetWatcherOpen then [Output.watcherClosed "asset"] else [])
          ++ (if s.sourceWatcherOpen then [Output.watcherClosed "source"] else [])
          ++ s.hub.clients.map (fun c => Output.clientEnded c)
          ++ [Output.promiseResolvedMark, Output.exit 0])
    else (s, [])

/-! ## Test fixtures used by witnesses -/

/-- A concrete configuration: empty root, plain concatenation for
`path.join`, identity decoding, unknown mime type. -/
def mkConfig (watch : Bool) (pairs : List CopyPair)
    (rf : String → Option String) : ServeConfig :=
  ⟨"", pairs, watch, fun a b => a ++ b, id, fun _ => none, rf⟩

/-- A concrete serving-phase state with the given hub clients. -/
def mkServing (hubClients : List Nat) : ServerState :=
  ⟨true, ⟨hubClients⟩, true, true, false, none⟩

/-! ## Counting lemmas -/

theorem count_write_map (l : List Nat) (c : Nat) :
    (l.map (fun a => Output.write a sseReloadMsg)).count
        (Output.write c sseReloadMsg) = l.count c := by
  induction l with
  | nil => simp
  | cons a as ih =>
    by_cases h : a = c <;> simp [List.count_cons, ih, h]

theorem count_broadcastWrites (m : SSEManager) (c : Nat) :
    (broadcastWrites m).count (Output.write c sseReloadMsg) = m.clients.count c :=
  count_write_map m.clients c

theorem count_sendReloadAttempts (m : SSEManager) (wOk : Nat → Bool) (c : Nat) :
    (sendReloadAttempts m wOk).count (c, sseReloadMsg, wOk c)
      = m.clients.count c := by
  obtain ⟨l⟩ := m
  induction l with
  | nil => simp [sendReloadAttempts]
  | cons a as ih =>
    by_cases h : a = c <;>
      simp_all [sendReloadAttempts, List.count_cons, Prod.ext_iff, h]

theorem copyAllAssets_ok (cp : String → String → Except String Unit)
    (h : ∀ a b, cp a b = Except.ok ()) :
    ∀ pairs : List CopyPair,
      copyAllAssets cp pairs
        = Except.ok (pairs.map fun p => Output.copied p.fromPath p.toPath) := by
  intro pairs
  induction pairs with
  | nil => rfl
  | cons p rest ih => simp [copyAllAssets, h p.fromPath p.toPath, ih, Except.map]

theorem hubRun_count_le (c : Nat) :
    ∀ es : List HubEvent, ∀ m : SSEManager,
      (es.foldl hubStep m).clients.count c
        ≤ m.clients.count c + hubConnectCount es c := by
  intro es
  induction es with
  | nil => intro m; simp [hubConnectCount]
  | cons e es ih =>
    intro m
    have hstep : (hubStep m e).clients.count c
        ≤ m.clients.count c + (if e = HubEvent.connect c then 1 else 0) := by
      cases e with
      | connect a =>
        by_cases h : a = c <;>
          simp [hubStep, SSEManager.handle, List.count_append, List.count_cons, h]
      | close a =>
        have hsub := (m.clients.erase_sublist a).count_le c
        simpa [hubStep, SSEManager.onClose] using hsub
    have hcount : hubConnectCount (e :: es) c
        = hubConnectCount es c + (if e = HubEvent.connect c then 1 else 0) := by
      by_cases h : e = HubEvent.connect c <;>
        simp [hubConnectCount, List.count_cons, h]
    calc ((e :: es).foldl hubStep m).clients.count c
        = (es.foldl hubStep (hubStep m e)).clients.count c := by rfl
      _ ≤ (hubStep m e).clients.count c + hubConnectCount es c := ih (hubStep m e)
      _ ≤ m.clients.count c + (if e = HubEvent.connect c then 1 else 0)
            + hubConnectCount es c := Nat.add_le_add_right hstep _
      _ = m.clients.count c + hubConnectCount (e :: es) c := by
            rw [hcount]; omega

/-! ## Claims -/

/-- Claim C1: one broadcast writes the single line `data: reload\n\n` to
every currently registered client, exactly once per registration; a write
failure on one client changes neither the targets nor the payloads of the
writes to the other clients (the attempt list is independent of the success
flags), the loop is total (the modelled write reports failure by flag, not
by exception), and a broadcast cycle leaves the client list untouched, so a
failed client stays registered for its own close handler. -/
theorem claim_C1 (m : SSEManager) (wOk : Nat → Bool) (c : Nat)
    (cfg : ServeConfig) (s : ServerState) (r : Except String Unit) :
    (sendReloadAttempts m wOk).map (fun t => (t.1, t.2.1))
        = m.clients.map (fun a => (a, sseReloadMsg))
      ∧ (sendReloadAttempts m wOk).count (c, sseReloadMsg, wOk c)
          = m.clients.count c
      ∧ (sendReloadAttempts m wOk).length = m.clients.length
      ∧ (step cfg s (SessionEvent.sourceChange r)).1 = s := by
  refine ⟨?_, count_sendReloadAttempts m wOk c, ?_, ?_⟩
  · simp [sendReloadAttempts]
  · simp [sendReloadAttempts]
  · by_cases h : s.sourceWatcherOpen = true <;> simp [step, h]

/-- Claim C3: a failing asset-copy cycle is not caught by the asset-watch
handler: the whole handler rejects with the copy error, emitting neither the
log line nor any reload write, and the event loop sees an uncaught error —
in contrast to a rebuild failure, which the source-watch handler catches and
turns into a logged error. -/
theorem claim_C3 (cfg : ServeConfig) (s : ServerState)
    (hA : s.assetWatcherOpen = true)
    (cp : String → String → Except String Unit) (e p : String)
    (hfail : copyAllAssets cp cfg.copyPairs = Except.error e) :
    (step cfg s (SessionEvent.assetChange p cp)).2 = [Output.uncaughtError e]
      ∧ assetAllHandler cp cfg.copyPairs s.hub = Except.error e
      ∧ (∀ c msg, Output.write c msg ∉ (step cfg s (SessionEvent.assetChange p cp)).2)
      ∧ (∀ msg, Output.log msg ∉ (step cfg s (SessionEvent.assetChange p cp)).2)
      ∧ rebuildHandler s.hub (Except.error e)
          = [Output.logError ("Build error: " ++ e)] := by
  have hh : assetAllHandler cp cfg.copyPairs s.hub = Except.error e := by
    simp [assetAllHandler, hfail, Except.map]
  have hs : (step cfg s (SessionEvent.assetChange p cp)).2
      = [Output.uncaughtError e] := by
    simp [step, hA, hh]
  refine ⟨hs, hh, ?_, ?_, rfl⟩
  · intro c msg; rw [hs]; simp
  · intro msg; rw [hs]; simp

/-- Witness for C3: one copy pair, a copy operation that always fails. -/
theorem claim_C3_witness :
    copyAllAssets (fun _ _ => Except.error "EACCES")
        (mkConfig true [⟨"a", "b"⟩] (fun _ => none)).copyPairs
      = Except.error "EACCES"
    ∧ (step (mkConfig true [⟨"a", "b"⟩] (fun _ => none)) (mkServing [4])
          (SessionEvent.assetChange "a/f.txt" (fun _ _ => Except.error "EACCES"))).2
        = [Output.uncaughtError "EACCES"] :=
  ⟨rfl,
    (claim_C3 (mkConfig true [⟨"a", "b"⟩] (fun _ => none)) (mkServing [4]) rfl
      (fun _ _ => Except.error "EACCES") "EACCES" "a/f.txt" rfl).1⟩

/-- Claim C5: in any hub trace that registers a given connection at most
once, the client appears in the list at most once; appending its close event
removes it synchronously, so the list no longer contains it and a broadcast
run afterward makes no write attempt to it (and, the attempt list being a
total function, raises no error). -/
theorem claim_C5 (es : List HubEvent) (c : Nat)
    (honce : hubConnectCount es c ≤ 1) :
    (hubRun es).clients.count c ≤ 1
      ∧ (hubRun (es ++ [HubEvent.close c])).clients.count c = 0
      ∧ (∀ wOk, (sendReloadAttempts (hubRun (es ++ [HubEvent.close c])) wOk).count
            (c, sseReloadMsg, wOk c) = 0) := by
  have hle : (hubRun es).clients.count c ≤ 1 := by
    have := hubRun_count_le c es ⟨[]⟩
    simp only [SSEManager.clients] at this
    calc (hubRun es).clients.count c
        ≤ (([] : List Nat).count c) + hubConnectCount es c := this
      _ ≤ 1 := by simpa using honce
  have hrun : hubRun (es ++ [HubEvent.close c])
      = (hubRun es).onClose c := by
    simp [hubRun, List.foldl_append, hubStep]
  have hzero : (hubRun (es ++ [HubEvent.close c])).clients.count c = 0 := by
    rw [hrun]
    have := List.count_erase_self c (hubRun es).clients
    simp only [SSEManager.onClose]
    omega
  refine ⟨hle, hzero, fun wOk => ?_⟩
  rw [count_sendReloadAttempts]
  exact hzero

/-- Witness for C5: two distinct connections, then the first one closes. -/
theorem claim_C5_witness :
    (hubRun [HubEvent.connect 5, HubEvent.connect 7]).clients.count 5 ≤ 1
      ∧ (hubRun ([HubEvent.connect 5, HubEvent.connect 7]
            ++ [HubEvent.close 5])).clients.count 5 = 0
      ∧ (∀ wOk,
          (sendReloadAttempts
              (hubRun ([HubEvent.connect 5, HubEvent.connect 7]
                ++ [HubEvent.close 5])) wOk).count (5, sseReloadMsg, wOk 5) = 0) :=
  claim_C5 [HubEvent.connect 5, HubEvent.connect 7] 5 (by decide)

/-- Claim C4: a failing rebuild on a source-change event is logged, the
cycle emits no reload write, the session state is unchanged (watchers and
listener stay up), and a subsequent request event still produces output:
the failure is never fatal. -/
theorem claim_C4 (cfg : ServeConfig) (s : ServerState)
    (hW : s.sourceWatcherOpen = true) (hL : s.listening = true) (e : String) :
    (step cfg s (SessionEvent.sourceChange (Except.error e))).2
        = [Output.logError ("Build error: " ++ e)]
      ∧ (∀ c msg,
          Output.write c msg ∉ (step cfg s (SessionEvent.sourceChange (Except.error e))).2)
      ∧ (step cfg s (SessionEvent.sourceChange (Except.error e))).1 = s
      ∧ (∀ cid url, (step cfg s (SessionEvent.request cid url)).2 ≠ []) := by
  have houts : (step cfg s (SessionEvent.sourceChange (Except.error e))).2
      = [Output.logError ("Build error: " ++ e)] := by
    simp [step, hW, rebuildHandler]
  refine ⟨houts, ?_, by simp [step, hW], ?_⟩
  · intro c msg; rw [houts]; simp
  · intro cid url
    cases h : handleRequest cfg url <;> simp [step, hL, h]

/-- Witness for C4: a serving session with one client and a failed build. -/
theorem claim_C4_witness :
    (step (mkConfig true [] (fun _ => none)) (mkServing [3])
        (SessionEvent.sourceChange (Except.error "boom"))).2
      = [Output.logError ("Build error: " ++ "boom")] :=
  (claim_C4 (mkConfig true [] (fun _ => none)) (mkServing [3]) rfl rfl "boom").1

/-- Claim C8: any change event on a watched asset path re-runs the copier
over all configured pairs — the outputs contain one copy per configured
pair and do not depend on which path changed — followed by exactly one
reload broadcast (one write per registered client). -/
theorem claim_C8 (cfg : ServeConfig) (s : ServerState)
    (hA : s.assetWatcherOpen = true)
    (cp : String → String → Except String Unit)
    (hok : ∀ a b, cp a b = Except.ok ()) (p q : String) :
    (step cfg s (SessionEvent.assetChange p cp)).2
        = (cfg.copyPairs.map fun pr => Output.copied pr.fromPath pr.toPath)
          ++ [Output.log "Assets copied"] ++ broadcastWrites s.hub
      ∧ (∀ pr ∈ cfg.copyPairs,
          Output.copied pr.fromPath pr.toPath
            ∈ (step cfg s (SessionEvent.assetChange p cp)).2)
      ∧ (step cfg s (SessionEvent.assetChange p cp)).2
          = (step cfg s (SessionEvent.assetChange q cp)).2
      ∧ (∀ c, ((step cfg s (SessionEvent.assetChange p cp)).2).count
            (Output.write c sseReloadMsg) = s.hub.clients.count c) := by
  have hcall : ∀ r : String, (step cfg s (SessionEvent.assetChange r cp)).2
      = (cfg.copyPairs.map fun pr => Output.copied pr.fromPath pr.toPath)
        ++ [Output.log "Assets copied"] ++ broadcastWrites s.hub := by
    intro r
    simp [step, hA, assetAllHandler, copyAllAssets_ok cp hok, Except.map]
  refine ⟨hcall p, ?_, by rw [hcall p, hcall q], ?_⟩
  · intro pr hpr
    rw [hcall p]
    simp only [List.mem_append, List.mem_map]
    exact Or.inl (Or.inl ⟨pr, hpr, rfl⟩)
  · intro c
    rw [hcall p, List.count_append, List.count_append, count_broadcastWrites]
    have h1 : (cfg.copyPairs.map
        fun pr => Output.copied pr.fromPath pr.toPath).count
          (Output.write c sseReloadMsg) = 0 :=
      List.count_eq_zero.mpr (by simp)
    have h2 : ([Output.log "Assets copied"] : List Output).count
        (Output.write c sseReloadMsg) = 0 :=
      List.count_eq_zero.mpr (by simp)
    omega

/-- Witness for C8: two copy pairs, two clients, a change under one pair. -/
theorem claim_C8_witness :
    (step (mkConfig true [⟨"a", "b"⟩, ⟨"c", "d"⟩] (fun _ => none))
        (mkServing [3, 9])
        (SessionEvent.assetChange "a/x.png" (fun _ _ => Except.ok ()))).2
      = ((mkConfig true [⟨"a", "b"⟩, ⟨"c", "d"⟩] (fun _ => none)).copyPairs.map
            fun pr => Output.copied pr.fromPath pr.toPath)
        ++ [Output.log "Assets copied"] ++ broadcastWrites (mkServing [3, 9]).hub :=
  (claim_C8 (mkConfig true [⟨"a", "b"⟩, ⟨"c", "d"⟩] (fun _ => none))
    (mkServing [3, 9]) rfl (fun _ _ => Except.ok ()) (fun _ _ => rfl)
    "a/x.png" "c/y.css").1

/-- Claim C9: on the termination signal the shutdown steps happen in order —
stop accepting connections, close the asset and the source watcher, end
every SSE client, resolve the serve promise, exit with code 0 — and in the
resulting state no later event can produce a reload write (broadcasting on
the closed hub is a no-op). -/
theorem claim_C9 (cfg : ServeConfig) (s : ServerState)
    (_hL : s.listening = true) (hA : s.assetWatcherOpen = true)
    (hS : s.sourceWatcherOpen = true) (hE : s.exited = none) :
    (step cfg s SessionEvent.sigint).2
        = [Output.log "\nShutting down...", Output.serverClosed,
           Output.watcherClosed "asset", Output.watcherClosed "source"]
          ++ s.hub.clients.map (fun c => Output.clientEnded c)
          ++ [Output.promiseResolvedMark, Output.exit 0]
      ∧ (step cfg s SessionEvent.sigint).1.exited = some 0
      ∧ (step cfg s SessionEvent.sigint).1.promiseResolved = true
      ∧ (step cfg s SessionEvent.sigint).1.hub.clients = []
      ∧ (∀ ev c msg,
          Output.write c msg ∉ (step cfg (step cfg s SessionEvent.sigint).1 ev).2) := by
  have hs' : (step cfg s SessionEvent.sigint).1
      = ⟨false, ⟨[]⟩, false, false, true, some 0⟩ := by
    simp [step, hE, SSEManager.closeAll]
  refine ⟨?_, by rw [hs'], by rw [hs'], by rw [hs'], ?_⟩
  · simp [step, hE, hA, hS]
  · intro ev c msg
    rw [hs']
    cases ev <;> simp [step]

/-- Witness for C9: a serving session with two clients receives SIGINT. -/
theorem claim_C9_witness :
    (step (mkConfig true [] (fun _ => none)) (mkServing [2, 4])
        SessionEvent.sigint).2
      = [Output.log "\nShutting down...", Output.serverClosed,
         Output.watcherClosed "asset", Output.watcherClosed "source"]
        ++ (mkServing [2, 4]).hub.clients.map (fun c => Output.clientEnded c)
        ++ [Output.promiseResolvedMark, Output.exit 0] :=
  (claim_C9 (mkConfig true [] (fun _ => none)) (mkServing [2, 4])
    rfl rfl rfl rfl).1

/-! ## Request handler lemmas -/

theorem handleRequest_none (cfg : ServeConfig) (url : String)
    (hns : (cfg.shouldWatch && url == "/__reload") = false)
    (hrf : cfg.readFile (resolvePath cfg url) = none) :
    handleRequest cfg url = ServeResponse.notFound "Not found" := by
  simp [handleRequest, hns, hrf]

theorem handleRequest_some (cfg : ServeConfig) (url : String) (d : String)
    (hns : (cfg.shouldWatch && url == "/__reload") = false)
    (hrf : cfg.readFile (resolvePath cfg url) = some d) :
    handleRequest cfg url
      = ServeResponse.ok
          ((cfg.mimeGetType (resolvePath cfg url)).getD "application/octet-stream")
          (if cfg.shouldWatch && jsEndsWith (resolvePath cfg url) "index.html"
            then injectReloadScript d else d) := by
  by_cases h : (cfg.shouldWatch && jsEndsWith (resolvePath cfg url) "index.html") = true <;>
    simp [handleRequest, hns, hrf, h]

/-- Claim C6: outside the reload endpoint, the handler resolves `/` to
`/index.html` under the root and any other path by decoding and joining it
onto the root; it answers 404 with body `Not found` exactly when the
resolved file cannot be read, and otherwise responds with the content type
looked up from the resolved path, defaulting to the generic binary type
when the lookup fails. -/
theorem claim_C6 (cfg : ServeConfig) (url : String)
    (hns : (cfg.shouldWatch && url == "/__reload") = false) :
    resolvePath cfg url
        = cfg.pathJoin cfg.root
            (if url = "/" then "/index.html" else cfg.decodeURIComponent url)
      ∧ (handleRequest cfg url = ServeResponse.notFound "Not found"
          ↔ cfg.readFile (resolvePath cfg url) = none)
      ∧ (∀ d, cfg.readFile (resolvePath cfg url) = some d →
          ∃ body, handleRequest cfg url
              = ServeResponse.ok
                  ((cfg.mimeGetType (resolvePath cfg url)).getD
                    "application/octet-stream") body
            ∧ (handleRequest cfg url).status = 200) := by
  refine ⟨rfl, ⟨?_, handleRequest_none cfg url hns⟩, ?_⟩
  · intro h
    cases hrf : cfg.readFile (resolvePath cfg url) with
    | none => rfl
    | some d =>
      rw [handleRequest_some cfg url d hns hrf] at h
      exact ServeResponse.noConfusion h
  · intro d hrf
    refine ⟨_, handleRequest_some cfg url d hns hrf, ?_⟩
    rw [handleRequest_some cfg url d hns hrf]
    rfl

/-- Witness for C6: a missing file answers 404 `Not found`. -/
theorem claim_C6_witness :
    handleRequest (mkConfig false [] (fun _ => none)) "/missing.txt"
      = ServeResponse.notFound "Not found" :=
  (claim_C6 (mkConfig false [] (fun _ => none)) "/missing.txt" (by decide)).2.1.mpr rfl

/-- Claim C7: the handler result for `/__reload` is the SSE registration
branch exactly when watch mode is on; the registration appends the new
connection to the hub list; with watch mode off the request falls through
to static file handling and answers 404 when no such file exists. -/
theorem claim_C7 (cfg : ServeConfig) (s : ServerState) (cid : Nat)
    (hL : s.listening = true) :
    (handleRequest cfg "/__reload" = ServeResponse.sse ↔ cfg.shouldWatch = true)
      ∧ (cfg.shouldWatch = true →
          (step cfg s (SessionEvent.request cid "/__reload")).1.hub
            = s.hub.handle cid)
      ∧ (cfg.shouldWatch = false →
          cfg.readFile (resolvePath cfg "/__reload") = none →
          handleRequest cfg "/__reload" = ServeResponse.notFound "Not found") := by
  have hsse : cfg.shouldWatch = true → handleRequest cfg "/__reload" = ServeResponse.sse := by
    intro hw; simp [handleRequest, hw]
  refine ⟨⟨?_, hsse⟩, ?_, ?_⟩
  · intro h
    cases hw : cfg.shouldWatch with
    | true => rfl
    | false =>
      exfalso
      have hns : (cfg.shouldWatch && ("/__reload" : String) == "/__reload") = false := by
        simp [hw]
      cases hrf : cfg.readFile (resolvePath cfg "/__reload") with
      | none =>
        rw [handleRequest_none cfg "/__reload" hns hrf] at h
        exact ServeResponse.noConfusion h
      | some d =>
        rw [handleRequest_some cfg "/__reload" d hns hrf] at h
        by_cases hb : (cfg.shouldWatch
            && jsEndsWith (resolvePath cfg "/__reload") "index.html") = true <;>
          simp [hb] at h
  · intro hw
    rw [show (step cfg s (SessionEvent.request cid "/__reload"))
        = ({ s with hub := s.hub.handle cid },
            [Output.sseOpen cid, Output.write cid "\n"]) by
      simp [step, hL, hsse hw]]
  · intro hw hrf
    exact handleRequest_none cfg "/__reload" (by simp [hw]) hrf

/-- Witness for C7: with watch mode off, `GET /__reload` answers 404. -/
theorem claim_C7_witness :
    handleRequest (mkConfig false [] (fun _ => none)) "/__reload"
      = ServeResponse.notFound "Not found" :=
  (claim_C7 (mkConfig false [] (fun _ => none)) (mkServing []) 0 rfl).2.2 rfl rfl

/-- Claim C2: in watch mode, a served file whose resolved path ends in
`index.html` and whose content has its first `</body>` at the split
`pre ++ </body> ++ post` is answered with the fixed EventSource script
block inserted immediately before that tag; any other file, or any file
with watch mode off, is answered with its exact original content. -/
theorem claim_C2 (cfg : ServeConfig) (url : String)
    (hns : (cfg.shouldWatch && url == "/__reload") = false)
    (d : String) (hrf : cfg.readFile (resolvePath cfg url) = some d) :
    (cfg.shouldWatch = true →
      jsEndsWith (resolvePath cfg url) "index.html" = true →
      ∀ pre post : List Char,
        d.data = pre ++ bodyCloseTag.data ++ post →
        (∀ i, i < pre.length →
          startsWithList (d.data.drop i) bodyCloseTag.data = false) →
        handleRequest cfg url
          = ServeResponse.ok
              ((cfg.mimeGetType (resolvePath cfg url)).getD
                "application/octet-stream")
              (String.mk (pre ++ reloadScript.data ++ bodyCloseTag.data ++ post)))
    ∧ ((cfg.shouldWatch = false
          ∨ jsEndsWith (resolvePath cfg url) "index.html" = false) →
        handleRequest cfg url
          = ServeResponse.ok
              ((cfg.mimeGetType (resolvePath cfg url)).getD
                "application/octet-stream") d) := by
  constructor
  · intro hw hend pre post hd hfirst
    rw [handleRequest_some cfg url d hns hrf, if_pos (by simp [hw, hend])]
    have hsplit : splitFirst bodyCloseTag.data d.data = some (pre, post) := by
      rw [hd]
      exact splitFirst_of_decomp bodyCloseTag.data pre post
        (fun i hi => by rw [← hd]; exact hfirst i hi)
    simp only [injectReloadScript, jsReplaceFirst, hsplit]
    simp [List.append_assoc]
  · intro hor
    have hcond : (cfg.shouldWatch
        && jsEndsWith (resolvePath cfg url) "index.html") = false := by
      rcases hor with hw | hend
      · simp [hw]
      · simp [hend]
    rw [handleRequest_some cfg url d hns hrf, if_neg (by simp [hcond])]

/-- Witness for C2: watch mode, `GET /`, `index.html` with body
`<body>hi</body>`: the script block lands right before `</body>`. -/
theorem claim_C2_witness :
    handleRequest
        (mkConfig true []
          (fun p => if p = "/index.html" then some "<body>hi</body>" else none)) "/"
      = ServeResponse.ok
          (((mkConfig true []
              (fun p => if p = "/index.html" then some "<body>hi</body>" else none)).mimeGetType
            (resolvePath
              (mkConfig true []
                (fun p => if p = "/index.html" then some "<body>hi</body>" else none)) "/")).getD
            "application/octet-stream")
          (String.mk ("<body>hi".data ++ reloadScript.data ++ bodyCloseTag.data ++ [])) :=
  (claim_C2
    (mkConfig true []
      (fun p => if p = "/index.html" then some "<body>hi</body>" else none)) "/"
    (by decide) "<body>hi</body>" (by decide)).1 rfl (by decide)
    "<body>hi".data [] (by decide) (by decide)

/-- Claim C10: in watch mode, an `index.html` whose content nowhere contains
`</body>` is served with its content unchanged — no script block is
injected — and the status is still 200. -/
theorem claim_C10 (cfg : ServeConfig) (url : String)
    (hns : (cfg.shouldWatch && url == "/__reload") = false)
    (d : String) (hrf : cfg.readFile (resolvePath cfg url) = some d)
    (hw : cfg.shouldWatch = true)
    (hend : jsEndsWith (resolvePath cfg url) "index.html" = true)
    (hnotag : containsSub bodyCloseTag.data d.data = false) :
    handleRequest cfg url
        = ServeResponse.ok
            ((cfg.mimeGetType (resolvePath cfg url)).getD
              "application/octet-stream") d
      ∧ (handleRequest cfg url).status = 200 := by
  have hinj : injectReloadScript d = d := by
    have hnone : splitFirst bodyCloseTag.data d.data = none :=
      (splitFirst_eq_none_iff bodyCloseTag.data d.data).mpr hnotag
    simp [injectReloadScript, jsReplaceFirst, hnone]
  have h : handleRequest cfg url
      = ServeResponse.ok
          ((cfg.mimeGetType (resolvePath cfg url)).getD
            "application/octet-stream") d := by
    rw [handleRequest_some cfg url d hns hrf, if_pos (by simp [hw, hend]), hinj]
  exact ⟨h, by rw [h]; rfl⟩

/-- Witness for C10: watch mode, `GET /`, an `index.html` without a
`</body>` tag comes back byte-identical with status 200. -/
theorem claim_C10_witness :
    handleRequest
        (mkConfig true []
          (fun p => if p = "/index.html" then some "<p>plain</p>" else none)) "/"
      = ServeResponse.ok
          (((mkConfig true []
              (fun p => if p = "/index.html" then some "<p>plain</p>" else none)).mimeGetType
            (resolvePath
              (mkConfig true []
                (fun p => if p = "/index.html" then some "<p>plain</p>" else none)) "/")).getD
            "application/octet-stream") "<p>plain</p>"
    ∧ (handleRequest
        (mkConfig true []
          (fun p => if p = "/index.html" then some "<p>plain</p>" else none)) "/").status
      = 200 :=
  claim_C10
    (mkConfig true []
      (fun p => if p = "/index.html" then some "<p>plain</p>" else none)) "/"
    (by decide) "<p>plain</p>" (by decide) rfl (by decide) (by decide)

end TsBuild
